import Mathlib

/-!
EaseProbe orchestration core.

A shallow embedding of `cmd/easeprobe/main.go` (`run`, `configProbers`,
`configNotifiers`, `scheduleSLA`) and `web/server.go` (`SetProbers`, `Server`).

Calls to the methods of the `probe.Prober` and `notify.Notify` interfaces, the
goroutines started with `go`, and the log lines are recorded, in program
order, as a list of `Event`s.  A duration (`time.Duration`) is an `Int`
(nanoseconds); an `error` is an `Option String` (`none` for `nil`).
-/

namespace probe

/-- Modelled from the spec: the type `probe.Status` is declared in package
`probe`, outside the sources at hand.  The specification gives its values as
`Init | Up | Down`; `run` names `probe.StatusInit` and `probe.StatusUp`. -/
inductive Status where
  | StatusInit
  | StatusUp
  | StatusDown
deriving DecidableEq, Repr

/-- Modelled from the spec: the struct `probe.Result` is declared in package
`probe`, outside the sources at hand.  The fields are the ones the
specification lists; `run` and `configProbers` read `Name`, `Endpoint`,
`Status`, `PreStatus` and write `Message`. -/
structure Result where
  Name : String
  Endpoint : String
  Status : probe.Status
  PreStatus : probe.Status
  Message : String
  Timestamp : Int
deriving DecidableEq, Repr

end probe

namespace global

/-- The struct literal `global.ProbeSettings` built in `configProbers`. -/
structure ProbeSettings where
  TimeFormat : String
  Interval : Int
  Timeout : Int
deriving DecidableEq, Repr

/-- The retry parameters carried by `global.NotifySettings`. -/
structure Retry where
  Times : Int
  Interval : Int
deriving DecidableEq, Repr

/-- The struct literal `global.NotifySettings` built in `configNotifiers`. -/
structure NotifySettings where
  TimeFormat : String
  Retry : global.Retry
deriving DecidableEq, Repr

end global

namespace probe

/-- The interface `probe.Prober` as `main.go` and `server.go` use it:
`Kind()`, `Config(gProbeConf)` (its returned error), `Result()` (the record the
prober owns) and `Interval()`. -/
structure Prober where
  Kind : String
  Config : global.ProbeSettings → Option String
  Result : probe.Result
  Interval : Int

end probe

namespace notify

/-- The interface `notify.Notify` as `main.go` uses it: `Kind()` and
`Config(gNotifyConf)` (its returned error).  The methods `Notify`,
`DryNotify`, `NotifyStat` and `DryNotifyStat` return nothing; a call of one is
recorded as a `Call`. -/
structure Notify where
  Kind : String
  Config : global.NotifySettings → Option String

end notify

namespace conf

/-- Modelled from the spec: the type `conf.Schedule` is declared in package
`conf`, outside the sources at hand.  `main.go` names `conf.None`,
`conf.Daily`, `conf.Weekly`, `conf.Monthly`; `Other n` stands for any further
value of the type, the ones the `default:` branch of `scheduleSLA` receives. -/
inductive Schedule where
  | None
  | Daily
  | Weekly
  | Monthly
  | Other (n : Nat)
deriving DecidableEq, Repr

/-- The fields `Settings.Probe.*` read by `configProbers`. -/
structure Probe where
  Interval : Int
  Timeout : Int
deriving DecidableEq, Repr

/-- The fields `Settings.Notify.*` read by `run`, `configNotifiers`, `scheduleSLA`. -/
structure Notify where
  Dry : Bool
  Retry : global.Retry
deriving DecidableEq, Repr

/-- The fields `Settings.SLAReport.*` read by `run` and `scheduleSLA`. -/
structure SLAReport where
  Schedule : conf.Schedule
  Time : String
  Debug : Bool
deriving DecidableEq, Repr

/-- The fields `Settings.HTTPServer.*` read and written by `web.Server`. -/
structure HTTPServer where
  IP : String
  Port : String
  AutoRefreshTime : Int
deriving DecidableEq, Repr

/-- The fields of `conf.Get().Settings` the two files use. -/
structure Settings where
  TimeFormat : String
  Probe : conf.Probe
  Notify : conf.Notify
  SLAReport : conf.SLAReport
  HTTPServer : conf.HTTPServer
deriving DecidableEq, Repr

/-- The value behind the pointer `conf.Get()` returns. -/
structure Conf where
  Settings : conf.Settings
deriving DecidableEq, Repr

end conf

/-- Severity of a log line (`log.Debugf`, `log.Infof`, `log.Warnf`, `log.Errorf`). -/
inductive LogLevel where
  | Debug
  | Info
  | Warn
  | Error
deriving DecidableEq, Repr

/-- One argument of a formatted log line. -/
inductive LogArg where
  | str (s : String)
  | status (s : probe.Status)
  | debugJSON (r : probe.Result)
  | probeSettings (c : global.ProbeSettings)
  | duration (d : Int)
  | nextRun
deriving DecidableEq, Repr

/-- A call the orchestration code makes on a collaborator.  `probeFn p` is the
closure of `configProbers` (main.go 150-160): the endless loop that probes,
logs, sends the Result to `notifyChan` and sleeps `p.Interval()`.
`ListenAndServe addr` is the body of the goroutine of `web.Server`
(server.go 91-101): it registers the two handlers and serves on `addr`. -/
inductive Call where
  | Notify (n : notify.Notify) (result : probe.Result)
  | DryNotify (n : notify.Notify) (result : probe.Result)
  | NotifyStat (n : notify.Notify) (probers : List probe.Prober)
  | DryNotifyStat (n : notify.Notify) (probers : List probe.Prober)
  | probeFn (p : probe.Prober)
  | ListenAndServe (addr : String)

/-- One observable step: a log line, a call made in the calling goroutine
(`sync`), or a call handed to a new goroutine by a `go` statement (`go`). -/
inductive Event where
  | log (level : LogLevel) (format : String) (args : List LogArg)
  | sync (c : Call)
  | go (c : Call)

/-- True on the four notifier methods that deliver something. -/
def Call.isNotifier : Call → Bool
  | .Notify _ _ => true
  | .DryNotify _ _ => true
  | .NotifyStat _ _ => true
  | .DryNotifyStat _ _ => true
  | .probeFn _ => false
  | .ListenAndServe _ => false

/-- The call an event carries, if any. -/
def Event.call? : Event → Option Call
  | .log _ _ _ => none
  | .sync c => some c
  | .go c => some c

/-- True on an event that invokes (or starts) a notifier method. -/
def Event.isNotifierCall (e : Event) : Bool :=
  match e.call? with
  | some c => c.isNotifier
  | none => false

/-- The notifier invocations of a trace, in order. -/
def notifierCalls (t : List Event) : List Event :=
  t.filter Event.isNotifierCall

/-- What one `select` of the loop in `run` receives: the `done` signal or a
`Result` from `notifyChan`. -/
inductive Select where
  | done
  | result (r : probe.Result)
deriving DecidableEq, Repr

open probe in
/-- The body of `case result := <-notifyChan` in `run` (main.go 119-142). -/
def dispatch (dryNotify : Bool) (notifies : List notify.Notify) (result : Result) :
    List Event :=
  if result.PreStatus = result.Status then
    [Event.log .Debug "%s (%s) - Status no change [%s] == [%s], no notification."
      [.str result.Name, .str result.Endpoint, .status result.PreStatus, .status result.Status]]
  else if result.PreStatus = Status.StatusInit ∧ result.Status = Status.StatusUp then
    [Event.log .Debug "%s (%s) - Initial Status [%s] == [%s], no notification."
      [.str result.Name, .str result.Endpoint, .status result.PreStatus, .status result.Status]]
  else
    Event.log .Info "%s (%s) - Status changed [%s] ==> [%s]"
      [.str result.Name, .str result.Endpoint, .status result.PreStatus, .status result.Status]
    :: notifies.map (fun n =>
        if dryNotify then Event.sync (.DryNotify n result) else Event.go (.Notify n result))

/-- The `for { select { ... } }` loop of `run` (main.go 112-144), driven by the
sequence of things its `select` receives.  `done` returns; when the sequence
is used up the loop is blocked in `select`. -/
def watch (dryNotify : Bool) (notifies : List notify.Notify) : List Select → List Event
  | [] => []
  | .done :: _ => []
  | .result r :: rest => dispatch dryNotify notifies r ++ watch dryNotify notifies rest

/-- The `global.ProbeSettings` literal of `configProbers` (main.go 162-166). -/
def gProbeConf (c : conf.Conf) : global.ProbeSettings :=
  { TimeFormat := c.Settings.TimeFormat
    Interval := c.Settings.Probe.Interval
    Timeout := c.Settings.Probe.Timeout }

/-- The `global.NotifySettings` literal of `configNotifiers` (main.go 184-187). -/
def gNotifyConf (c : conf.Conf) : global.NotifySettings :=
  { TimeFormat := c.Settings.TimeFormat
    Retry := c.Settings.Notify.Retry }

/-- Assignment `p.Result().Message = msg`. -/
def probe.Prober.setMessage (p : probe.Prober) (msg : String) : probe.Prober :=
  { p with Result := { p.Result with Message := msg } }

/-- One iteration of the `for _, p := range probers` loop of `configProbers`
(main.go 169-180): the prober afterwards, and what the iteration logs and
starts.  `go probeFn(p)` is the runner: the endless probe, publish, sleep loop. -/
def configProber (g : global.ProbeSettings) (p : probe.Prober) : probe.Prober × List Event :=
  match p.Config g with
  | some err =>
    (p.setMessage ("Bad Configuration: " ++ err), [Event.log .Error "error: %v" [.str err]])
  | none =>
    let p1 := p.setMessage "Good Configuration!"
    (p1, [Event.log .Info "Ready to monitor(%s): %s - %s"
            [.str p1.Kind, .str p1.Result.Name, .str p1.Result.Endpoint],
          Event.go (.probeFn p1)])

/-- Function `configProbers` (main.go 148-181): the probers afterwards and the trace. -/
def configProbers (c : conf.Conf) (probers : List probe.Prober) :
    List probe.Prober × List Event :=
  let g := gProbeConf c
  let done := probers.map (configProber g)
  (done.map Prod.fst,
    Event.log .Debug "Global Probe Configuration: %+v" [.probeSettings g]
      :: (done.map Prod.snd).flatten)

/-- One iteration of the loop of `configNotifiers` (main.go 188-196). -/
def configNotifier (g : global.NotifySettings) (n : notify.Notify) : List Event :=
  match n.Config g with
  | some err => [Event.log .Error "error: %v" [.str err]]
  | none => [Event.log .Info "Successfully setup the notify channel: %s" [.str n.Kind]]

/-- Function `configNotifiers` (main.go 183-197).  It returns nothing and
leaves the slice it is given as it is; only log lines come out of it. -/
def configNotifiers (c : conf.Conf) (notifies : List notify.Notify) : List Event :=
  (notifies.map (configNotifier (gNotifyConf c))).flatten

namespace time

/-- Type `time.Weekday` of the Go library. -/
inductive Weekday where
  | Sunday
  | Monday
  | Tuesday
  | Wednesday
  | Thursday
  | Friday
  | Saturday
deriving DecidableEq, Repr

end time

/-!
The scheduler builder of the library `github.com/go-co-op/gocron`, as far as
`scheduleSLA` drives it.  A job is the record the builder calls fill in:
`Every(n)` opens a new job with interval `n`; `Minute()`, `Day()` set its unit;
`Sunday()` adds the weekday and sets the unit to weeks; `MonthLastDay()` sets
the unit to months with day of month `-1`; `At(t)` reads the text `t` as a
time-of-day and records it, or records an error on the job when `t` is no
time-of-day; `Do(f)` attaches the job function, or removes the job from the
scheduler when an error was recorded on it.  `scheduleSLA` does not look at
what `Do` returns.
-/
namespace gocron

/-- The unit of a job interval. -/
inductive schedulingUnit where
  | seconds
  | minutes
  | hours
  | days
  | weeks
  | months
deriving DecidableEq, Repr

/-- A job under construction or registered; `F` is the type of job functions.
`atTime` is the time-of-day as a duration from midnight, in nanoseconds;
`error` is the error the builder calls have recorded on the job. -/
structure Job (F : Type) where
  interval : Nat
  unit : Option schedulingUnit
  scheduledWeekdays : List time.Weekday
  daysOfTheMonth : List Int
  atTime : Option Int
  function : Option F
  error : Option String

/-- A scheduler: its location, its jobs in registration order, whether started. -/
structure Scheduler (F : Type) where
  location : String
  jobs : List (Job F)
  running : Bool

/-- Helper `wrapOrError`: the new error, put in front of the one already there. -/
def wrapOrError (toWrap : Option String) (err : String) : Option String :=
  match toWrap with
  | some w => some (err ++ ": " ++ w)
  | none => some err

/-- The parts of a text between its colons. -/
def fields : List Char → List (List Char)
  | [] => [[]]
  | ch :: rest =>
    if ch = ':' then [] :: fields rest
    else
      match fields rest with
      | [] => [[ch]]
      | f :: fs => (ch :: f) :: fs

/-- True when every character is an ASCII digit. -/
def allDigits (cs : List Char) : Bool :=
  cs.all (fun ch => decide (48 ≤ ch.toNat) && decide (ch.toNat ≤ 57))

/-- The number a run of ASCII digits writes. -/
def number (cs : List Char) : Nat :=
  cs.foldl (fun n ch => n * 10 + (ch.toNat - 48)) 0

/-- Helper `parseTime`: the text must be `H:MM`, `HH:MM`, `H:MM:SS` or
`HH:MM:SS` in decimal digits (one or two digits for the hour, two for the
minute and for the second), and be a time of the day (`time.Parse` with
layout `15:04` or `15:04:05`: hour below 24, minute and second below 60).
The result is hour, minute, second; `none` is `ErrUnsupportedTimeFormat`. -/
def parseTime (t : String) : Option (Nat × Nat × Nat) :=
  let hourOk (h : List Char) : Bool :=
    (h.length == 1 || h.length == 2) && allDigits h && decide (number h < 24)
  let sixtyOk (m : List Char) : Bool :=
    m.length == 2 && allDigits m && decide (number m < 60)
  match fields t.toList with
  | [h, m] =>
    if hourOk h && sixtyOk m then some (number h, number m, 0) else none
  | [h, m, sec] =>
    if hourOk h && sixtyOk m && sixtyOk sec then some (number h, number m, number sec)
    else none
  | _ => none

/-- Constructor `gocron.NewScheduler(loc)`. -/
def NewScheduler {F : Type} (loc : String) : Scheduler F :=
  { location := loc, jobs := [], running := false }

/-- Apply `f` to the job the builder is working on, the last one. -/
def Scheduler.onCurrentJob {F : Type} (s : Scheduler F) (f : Job F → Job F) : Scheduler F :=
  match s.jobs.reverse with
  | [] => s
  | j :: before => { s with jobs := (f j :: before).reverse }

/-- Builder call `Every(interval)`: a new job becomes the current one; an
interval of 0 is recorded as an error on it. -/
def Scheduler.Every {F : Type} (s : Scheduler F) (interval : Nat) : Scheduler F :=
  { s with jobs := s.jobs ++ [{ interval := interval, unit := none, scheduledWeekdays := [],
                                daysOfTheMonth := [], atTime := none, function := none,
                                error := if interval = 0 then some "invalid interval" else none }] }

/-- Builder call `Minute()`. -/
def Scheduler.Minute {F : Type} (s : Scheduler F) : Scheduler F :=
  s.onCurrentJob (fun j => { j with unit := some .minutes })

/-- Builder call `Day()`. -/
def Scheduler.Day {F : Type} (s : Scheduler F) : Scheduler F :=
  s.onCurrentJob (fun j => { j with unit := some .days })

/-- Builder call `Sunday()`: `Weekday(time.Sunday)`, which adds the weekday
when it is not there yet and sets the unit to weeks. -/
def Scheduler.Sunday {F : Type} (s : Scheduler F) : Scheduler F :=
  s.onCurrentJob (fun j =>
    { j with
      scheduledWeekdays :=
        if time.Weekday.Sunday ∈ j.scheduledWeekdays then j.scheduledWeekdays
        else j.scheduledWeekdays ++ [time.Weekday.Sunday]
      unit := some .weeks })

/-- Builder call `MonthLastDay()`: `Months(-1)`. -/
def Scheduler.MonthLastDay {F : Type} (s : Scheduler F) : Scheduler F :=
  s.onCurrentJob (fun j =>
    { j with daysOfTheMonth := j.daysOfTheMonth ++ [-1], unit := some .months })

/-- Builder call `At(t)` with a text: `parseTime` reads it; on failure the
error is recorded on the job and nothing else changes, otherwise the time is
stored as `hour*time.Hour + min*time.Minute + sec*time.Second`. -/
def Scheduler.At {F : Type} (s : Scheduler F) (t : String) : Scheduler F :=
  s.onCurrentJob (fun j =>
    match parseTime t with
    | none => { j with error := wrapOrError j.error "the given time format is not supported" }
    | some (hour, min, sec) =>
      { j with atTime := some ((hour : Int) * 3600000000000 + (min : Int) * 60000000000
                                + (sec : Int) * 1000000000) })

/-- Builder call `Do(jobFun)`: a time-of-day other than midnight on a unit of
hours or less, or a weekday on a unit other than weeks, is recorded as an
error; a job with an error is removed from the scheduler (and `Do` returns
the error), any other job gets the function and stays. -/
def Scheduler.Do {F : Type} (s : Scheduler F) (jobFun : F) : Scheduler F :=
  match s.jobs.reverse with
  | [] => s
  | j :: before =>
    let atTimeSet : Bool := match j.atTime with
      | some d => decide (d ≠ 0)
      | none => false
    let smallUnit : Bool := match j.unit with
      | none => true
      | some .seconds => true
      | some .minutes => true
      | some .hours => true
      | _ => false
    let e1 := if atTimeSet && smallUnit
      then wrapOrError j.error "the At() method is not supported for this time unit"
      else j.error
    let e2 := if !j.scheduledWeekdays.isEmpty && decide (j.unit ≠ some .weeks)
      then wrapOrError e1 "weekday is not supported for time unit"
      else e1
    match e2 with
    | some _ => { s with jobs := before.reverse }
    | none => { s with jobs := ({ j with function := some jobFun } :: before).reverse }

/-- Call `StartAsync()`. -/
def Scheduler.StartAsync {F : Type} (s : Scheduler F) : Scheduler F :=
  { s with running := true }

/-- The fixed time between two firings of a job, in seconds, for a job whose
unit is a fixed span and that has no time-of-day; `none` for calendar jobs. -/
def Job.every? {F : Type} (j : Job F) : Option Nat :=
  match j.atTime, j.unit with
  | none, some .seconds => some j.interval
  | none, some .minutes => some (60 * j.interval)
  | none, some .hours => some (3600 * j.interval)
  | _, _ => none

end gocron

/-- The type of the job function handed to `Do`: one firing yields a trace. -/
abbrev JobFunc : Type := Unit → List Event

/-- Closure `SLAFn` of `scheduleSLA` (main.go 205-218): one firing. -/
def SLAFn (dryNotify : Bool) (probers : List probe.Prober) (notifies : List notify.Notify) :
    List Event :=
  (notifies.map (fun n =>
      if dryNotify then
        [Event.sync (.DryNotifyStat n probers)]
      else
        [Event.log .Debug "[%s] notifying the SLA..." [.str n.Kind],
         Event.go (.NotifyStat n probers)])).flatten
    ++ [Event.log .Info "Next Time to send the SLA Report - %s" [.nextRun]]

/-- Function `scheduleSLA` (main.go 199-248): the scheduler it leaves running
and the trace of the call. -/
def scheduleSLA (c : conf.Conf) (probers : List probe.Prober) (notifies : List notify.Notify) :
    gocron.Scheduler JobFunc × List Event :=
  let cron : gocron.Scheduler JobFunc := gocron.NewScheduler "UTC"
  let dryNotify := c.Settings.Notify.Dry
  let fn : JobFunc := fun _ => SLAFn dryNotify probers notifies
  let registered : gocron.Scheduler JobFunc × List Event :=
    if c.Settings.SLAReport.Debug then
      ((((cron.Every 1).Minute).Do fn),
        [Event.log .Info "Preparing to send the  SLA report in every minute..." []])
    else
      let time := c.Settings.SLAReport.Time
      match c.Settings.SLAReport.Schedule with
      | .Daily =>
        (((((cron.Every 1).Day).At time).Do fn),
          [Event.log .Info "Preparing to send the daily SLA report at %s UTC time..."
            [.str time]])
      | .Weekly =>
        ((((((cron.Every 1).Day).Sunday).At time).Do fn),
          [Event.log .Info "Preparing to send the weekly SLA report on Sunday at %s UTC time..."
            [.str time]])
      | .Monthly =>
        (((((cron.Every 1).MonthLastDay).At time).Do fn),
          [Event.log .Info "Preparing to send the monthly SLA report in last day at %s UTC time..."
            [.str time]])
      | _ =>
        (((((cron.Every 1).Day).At "00:00").Do fn),
          [Event.log .Warn
            "Bad Scheduling! Preparing to send the daily SLA report at 00:00 UTC time..." []])
  (registered.1.StartAsync,
    registered.2 ++ [Event.log .Info "Next Time to send the SLA Report - %s" [.nextRun]])

namespace strconv

/-- The decimal value of a run of ASCII digits, most significant first, on top
of `acc`; `none` at the first character that is no digit. -/
def digits (acc : Nat) : List Char → Option Nat
  | [] => some acc
  | ch :: rest =>
    if 48 ≤ ch.toNat ∧ ch.toNat ≤ 57 then digits (acc * 10 + (ch.toNat - 48)) rest
    else none

/-- Library function `strconv.Atoi` (base 10, 64-bit `int`): an optional sign
followed by at least one decimal digit.  The result is the pair `(value, err)`
Go returns: `(0, syntax error)` for text that is no number, the nearest bound
with a range error for a number outside `int`. -/
def Atoi (s : String) : Int × Option String :=
  let syntaxError : Int × Option String := (0, some "invalid syntax")
  let body (neg : Bool) (ds : List Char) : Int × Option String :=
    match ds with
    | [] => syntaxError
    | _ =>
      match digits 0 ds with
      | none => syntaxError
      | some n =>
        if neg then
          if n ≤ 2 ^ 63 then (-(n : Int), none)
          else (-(2 ^ 63 : Int), some "value out of range")
        else
          if n < 2 ^ 63 then ((n : Int), none)
          else ((2 ^ 63 - 1 : Int), some "value out of range")
  match s.toList with
  | [] => syntaxError
  | ch :: rest =>
    if ch = '-' then body true rest
    else if ch = '+' then body false rest
    else body false (ch :: rest)

end strconv

/-- Constants of package `global` and the library function `net.ParseIP`
(`true` when the text is an IP address), declared outside the sources at hand
and taken as parameters. -/
structure Env where
  DefaultHTTPServerIP : String
  DefaultHTTPServerPort : String
  DefaultProbeInterval : Int
  ParseIP : String → Bool

namespace web

/-- Function `SetProbers` (server.go 50-53): the package variable `probers`
afterwards; `none` is the nil pointer it holds before. -/
def SetProbers (p : List probe.Prober) : Option (List probe.Prober) :=
  some p

/-- What `Server` leaves behind: the configuration (it writes
`AutoRefreshTime`), the host and port it listens on, and its trace. -/
structure Served where
  conf : conf.Conf
  host : String
  port : String
  trace : List Event

/-- The loop of `Server` that finds the minimum probe interval (server.go 79-85). -/
def minInterval (start : Int) (probers : List probe.Prober) : Int :=
  probers.foldl (fun interval p => if interval > p.Interval then p.Interval else interval) start

/-- Function `Server` (server.go 56-102) on the package variable `probers`.
`none` is the nil dereference of `*probers` when `SetProbers` was never
called and the refresh time is to be computed. -/
def Server (env : Env) (c : conf.Conf) (probers : Option (List probe.Prober)) :
    Option Served :=
  let host := c.Settings.HTTPServer.IP
  let port := c.Settings.HTTPServer.Port
  let host := if host.utf8ByteSize > 0 ∧ env.ParseIP host = false then env.DefaultHTTPServerIP
              else host
  let (p, err) := strconv.Atoi port
  let ported : String × List Event :=
    if err ≠ none ∨ p ≤ 1024 ∨ p > 65535 then
      (env.DefaultHTTPServerPort,
        [Event.log .Warn "[Web] Invalid port number: %s, use the default value: %s"
          [.str port, .str env.DefaultHTTPServerPort]])
    else
      (c.Settings.HTTPServer.Port, [])
  let refreshed : Option (conf.Conf × List Event) :=
    if c.Settings.HTTPServer.AutoRefreshTime = 0 then
      match probers with
      | none => none
      | some ps =>
        let interval := minInterval env.DefaultProbeInterval ps
        some ({ c with Settings.HTTPServer.AutoRefreshTime := interval },
          [Event.log .Debug "[Web] Auto refresh interval time: %s" [.duration interval]])
    else
      some (c, [])
  match refreshed with
  | none => none
  | some (c1, t) =>
    some { conf := c1, host := host, port := ported.1,
           trace := ported.2 ++ t ++ [Event.go (.ListenAndServe (host ++ ":" ++ ported.1))] }

end web

/-- What `run` has done once its loop has worked through the given `select`
outcomes: the probers and configuration as they then are, the SLA scheduler
(`none` when none was created), and the trace. -/
structure Ran where
  probers : List probe.Prober
  conf : conf.Conf
  cron : Option (gocron.Scheduler JobFunc)
  trace : List Event

/-- Function `run` (main.go 85-146).  `c` is the configuration `conf.Get()`
points to; `received` is what the `select` of the loop receives, in order. -/
def run (env : Env) (c : conf.Conf) (probers : List probe.Prober)
    (notifies : List notify.Notify) (received : List Select) : Option Ran :=
  let dryNotify := c.Settings.Notify.Dry
  let configured := configProbers c probers
  let probers := configured.1
  let t2 := configNotifiers c notifies
  match web.Server env c (web.SetProbers probers) with
  | none => none
  | some served =>
    let c := served.conf
    let sla : Option (gocron.Scheduler JobFunc) × List Event :=
      if c.Settings.SLAReport.Schedule ≠ conf.Schedule.None then
        let scheduled := scheduleSLA c probers notifies
        (some scheduled.1, scheduled.2)
      else
        (none, [Event.log .Info "No SLA Report would be sent!!" []])
    some { probers := probers, conf := c, cron := sla.1,
           trace := configured.2 ++ t2 ++ served.trace ++ sla.2
                      ++ watch dryNotify notifies received }

/-- The notifications one Result gives rise to when it is a genuine transition:
one per notifier, in list order; `DryNotify` called in place in dry mode,
`Notify` started in a goroutine of its own otherwise. -/
def notificationsOf (dryNotify : Bool) (notifies : List notify.Notify) (result : probe.Result) :
    List Event :=
  notifies.map (fun n =>
    if dryNotify then Event.sync (.DryNotify n result) else Event.go (.Notify n result))

/-- A sequence of Results as one prober publishes it: the first has
`PreStatus = prev`, each later one has the `Status` of the one before it as
its `PreStatus`. -/
def inSuccession (prev : probe.Status) : List probe.Result → Bool
  | [] => true
  | r :: rest => decide (r.PreStatus = prev) && inSuccession r.Status rest

/-- Sample notifier whose `Config` succeeds. -/
def slack : notify.Notify := { Kind := "slack", Config := fun _ => none }

/-- Sample notifier whose `Config` fails. -/
def email : notify.Notify := { Kind := "email", Config := fun _ => some "no SMTP server" }

/-- Sample Result with the given previous and current status. -/
def sampleResult (pre cur : probe.Status) : probe.Result :=
  { Name := "web", Endpoint := "http://example.com", Status := cur, PreStatus := pre,
    Message := "", Timestamp := 0 }

/-- Sample prober with the given outcome of `Config` and probe interval. -/
def sampleProber (name : String) (err : Option String) (interval : Int) : probe.Prober :=
  { Kind := "http", Config := fun _ => err,
    Result := { Name := name, Endpoint := "http://example.com", Status := .StatusInit,
                PreStatus := .StatusInit, Message := "", Timestamp := 0 },
    Interval := interval }

/-- Sample values for the constants of package `global`. -/
def sampleEnv : Env :=
  { DefaultHTTPServerIP := "0.0.0.0", DefaultHTTPServerPort := "8181",
    DefaultProbeInterval := 60000000000, ParseIP := fun _ => true }

/-- Sample configuration with the given dry flag, SLA report and HTTP server settings. -/
def sampleConf (dry : Bool) (sla : conf.SLAReport) (http : conf.HTTPServer) : conf.Conf :=
  { Settings :=
    { TimeFormat := "2006-01-02 15:04:05 UTC"
      Probe := { Interval := 60000000000, Timeout := 30000000000 }
      Notify := { Dry := dry, Retry := { Times := 3, Interval := 5000000000 } }
      SLAReport := sla
      HTTPServer := http } }

/-- The duration from midnight, in nanoseconds, of hour, minute, second: what
`At` stores for a text `parseTime` reads as that time. -/
def gocron.atDuration (t : Nat × Nat × Nat) : Int :=
  (t.1 : Int) * 3600000000000 + (t.2.1 : Int) * 60000000000 + (t.2.2 : Int) * 1000000000

/-- The probers for which a trace starts a runner (`go probeFn(p)`), in order. -/
def runnersStarted (t : List Event) : List probe.Prober :=
  t.filterMap (fun e =>
    match e with
    | Event.go (Call.probeFn p) => some p
    | _ => none)

theorem notifierCalls_append (a b : List Event) :
    notifierCalls (a ++ b) = notifierCalls a ++ notifierCalls b := by
  simp [notifierCalls]

theorem notifierCalls_eq_nil_of_forall (t : List Event)
    (h : ∀ e ∈ t, e.isNotifierCall = false) : notifierCalls t = [] := by
  simp only [notifierCalls, List.filter_eq_nil_iff]
  intro e he
  simp [h e he]

theorem notifierCalls_flatten_nil (ts : List (List Event))
    (h : ∀ t ∈ ts, notifierCalls t = []) : notifierCalls ts.flatten = [] := by
  induction ts with
  | nil => rfl
  | cons t ts ih =>
    rw [List.flatten_cons, notifierCalls_append, h t (List.mem_cons_self _ _),
      ih (fun u hu => h u (List.mem_cons_of_mem _ hu))]
    rfl

theorem notifierCalls_configProber (g : global.ProbeSettings) (p : probe.Prober) :
    notifierCalls (configProber g p).2 = [] := by
  unfold configProber
  cases p.Config g <;> rfl

theorem notifierCalls_configProbers (c : conf.Conf) (ps : List probe.Prober) :
    notifierCalls (configProbers c ps).2 = [] := by
  unfold configProbers
  show notifierCalls (_ :: _) = []
  have : notifierCalls (List.map Prod.snd (List.map (configProber (gProbeConf c)) ps)).flatten = [] := by
    apply notifierCalls_flatten_nil
    intro t ht
    simp only [List.mem_map] at ht
    obtain ⟨x, ⟨p, _, rfl⟩, rfl⟩ := ht
    exact notifierCalls_configProber _ _
  simpa [notifierCalls, Event.isNotifierCall, Event.call?] using this

theorem notifierCalls_configNotifiers (c : conf.Conf) (ns : List notify.Notify) :
    notifierCalls (configNotifiers c ns) = [] := by
  unfold configNotifiers
  apply notifierCalls_flatten_nil
  intro t ht
  simp only [List.mem_map] at ht
  obtain ⟨n, _, rfl⟩ := ht
  unfold configNotifier
  cases n.Config (gNotifyConf c) <;> rfl

theorem notifierCalls_Server (env : Env) (c : conf.Conf) (ps : Option (List probe.Prober))
    (s : web.Served) (h : web.Server env c ps = some s) : notifierCalls s.trace = [] := by
  unfold web.Server at h
  simp only at h
  split at h
  · exact absurd h (by simp)
  · rename_i c1 t hr
    injection h with h
    subst h
    simp only
    split at hr
    · split at hr
      · exact absurd hr (by simp)
      · injection hr with hr
        injection hr with h1 h2
        subst h2
        split <;> rfl
    · injection hr with hr
      injection hr with h1 h2
      subst h2
      split <;> rfl

theorem notifierCalls_scheduleSLA (c : conf.Conf) (ps : List probe.Prober)
    (ns : List notify.Notify) : notifierCalls (scheduleSLA c ps ns).2 = [] := by
  unfold scheduleSLA
  simp only
  split
  · rfl
  · split <;> rfl

theorem Server_SetProbers (env : Env) (c : conf.Conf) (ps : List probe.Prober) :
    ∃ s, web.Server env c (web.SetProbers ps) = some s := by
  unfold web.Server web.SetProbers
  simp only
  by_cases h : c.Settings.HTTPServer.AutoRefreshTime = 0
  · rw [if_pos h]
    exact ⟨_, rfl⟩
  · rw [if_neg h]
    exact ⟨_, rfl⟩

theorem run_notifierCalls (env : Env) (c : conf.Conf) (ps : List probe.Prober)
    (ns : List notify.Notify) (received : List Select) :
    (run env c ps ns received).map (fun ran => notifierCalls ran.trace)
      = some (notifierCalls (watch c.Settings.Notify.Dry ns received)) := by
  obtain ⟨s, hs⟩ := Server_SetProbers env c (configProbers c ps).1
  have h3 := notifierCalls_Server env c _ s hs
  unfold run
  simp only [hs, Option.map_some', notifierCalls_append, notifierCalls_configProbers,
    notifierCalls_configNotifiers, h3, List.nil_append]
  split
  · simp [notifierCalls_scheduleSLA]
  · rfl

theorem watch_results_append (dry : Bool) (ns : List notify.Notify) (pre : List probe.Result)
    (rest : List Select) :
    watch dry ns (pre.map Select.result ++ rest)
      = watch dry ns (pre.map Select.result) ++ watch dry ns rest := by
  induction pre with
  | nil => simp [watch]
  | cons r pre ih => simp [watch, ih]

theorem notifierCalls_notificationsOf (dry : Bool) (ns : List notify.Notify) (r : probe.Result) :
    notifierCalls (notificationsOf dry ns r) = notificationsOf dry ns r := by
  unfold notifierCalls notificationsOf
  rw [List.filter_eq_self]
  intro e he
  simp only [List.mem_map] at he
  obtain ⟨n, _, rfl⟩ := he
  cases dry <;> rfl

theorem notifierCalls_dispatch (dry : Bool) (ns : List notify.Notify) (r : probe.Result) :
    notifierCalls (dispatch dry ns r)
      = if r.PreStatus ≠ r.Status
            ∧ ¬ (r.PreStatus = probe.Status.StatusInit ∧ r.Status = probe.Status.StatusUp)
        then notificationsOf dry ns r else [] := by
  unfold dispatch
  by_cases h1 : r.PreStatus = r.Status
  · simp only [h1, if_true, ne_eq, not_true_eq_false, false_and, if_false]
    rfl
  · by_cases h2 : r.PreStatus = probe.Status.StatusInit ∧ r.Status = probe.Status.StatusUp
    · simp only [h1, h2, if_false, and_self, if_true, not_true_eq_false, and_false]
      rfl
    · rw [if_neg h1, if_neg h2, if_pos ⟨h1, h2⟩]
      have := notifierCalls_notificationsOf dry ns r
      unfold notificationsOf at this ⊢
      unfold notifierCalls at this ⊢
      rw [List.filter_cons_of_neg (by simp [Event.isNotifierCall, Event.call?])]
      exact this

theorem notifierCalls_watch_results (dry : Bool) (ns : List notify.Notify)
    (rs : List probe.Result) :
    notifierCalls (watch dry ns (rs.map Select.result))
      = (rs.map (fun r =>
          if r.PreStatus ≠ r.Status
              ∧ ¬ (r.PreStatus = probe.Status.StatusInit ∧ r.Status = probe.Status.StatusUp)
          then notificationsOf dry ns r else [])).flatten := by
  induction rs with
  | nil => rfl
  | cons r rs ih =>
    simp only [List.map_cons, watch, notifierCalls_append, notifierCalls_dispatch, ih,
      List.flatten_cons]


/-- C1: a Result whose Status equals its PreStatus, or whose PreStatus is Init
and Status is Up, makes the dispatch loop of `run` invoke no notifier method:
handling it produces no notifier event, for every notifier list and either
value of the dry flag, and wherever it stands among the Results `run` receives
the notifier invocations of `run` are the ones it makes without that Result. -/
theorem dispatch_silent_without_transition (env : Env) (c : conf.Conf)
    (probers : List probe.Prober) (notifies : List notify.Notify) (dry : Bool)
    (before : List probe.Result) (result : probe.Result) (after : List Select)
    (h : result.Status = result.PreStatus
          ∨ (result.PreStatus = probe.Status.StatusInit
              ∧ result.Status = probe.Status.StatusUp)) :
    (∀ e ∈ dispatch dry notifies result, e.isNotifierCall = false)
    ∧ notifierCalls (dispatch dry notifies result) = []
    ∧ (run env c probers notifies (before.map Select.result ++ Select.result result :: after)).map
          (fun ran => notifierCalls ran.trace)
        = (run env c probers notifies (before.map Select.result ++ after)).map
          (fun ran => notifierCalls ran.trace)
    ∧ (run env c probers notifies (before.map Select.result ++ Select.result result :: after)).isSome
        = true := by
  have hnil : notifierCalls (dispatch dry notifies result) = [] := by
    rw [notifierCalls_dispatch, if_neg]
    rintro ⟨h1, h2⟩
    rcases h with h | h
    · exact h1 h.symm
    · exact h2 h
  have hnil2 : notifierCalls (dispatch c.Settings.Notify.Dry notifies result) = [] := by
    rw [notifierCalls_dispatch, if_neg]
    rintro ⟨h1, h2⟩
    rcases h with h | h
    · exact h1 h.symm
    · exact h2 h
  refine ⟨?_, hnil, ?_, ?_⟩
  · intro e he
    by_contra hne
    have hmem : e ∈ notifierCalls (dispatch dry notifies result) := by
      unfold notifierCalls
      rw [List.mem_filter]
      exact ⟨he, by simpa using hne⟩
    rw [hnil] at hmem
    exact absurd hmem (List.not_mem_nil _)
  · rw [run_notifierCalls, run_notifierCalls, watch_results_append, watch_results_append]
    simp only [watch, notifierCalls_append, hnil2, List.nil_append]
  · have := run_notifierCalls env c probers notifies
      (before.map Select.result ++ Select.result result :: after)
    cases hr : run env c probers notifies
      (before.map Select.result ++ Select.result result :: after) with
    | none => rw [hr] at this; exact absurd this (by simp)
    | some _ => rfl

/-- C1 at a concrete input: dry mode, two notifiers, a Result that stays Up
received after an Init-to-Up one. -/
theorem dispatch_silent_without_transition_witness :
    ((sampleResult .StatusUp .StatusUp).Status = (sampleResult .StatusUp .StatusUp).PreStatus
        ∨ ((sampleResult .StatusUp .StatusUp).PreStatus = probe.Status.StatusInit
            ∧ (sampleResult .StatusUp .StatusUp).Status = probe.Status.StatusUp))
    ∧ notifierCalls (dispatch true [slack, email] (sampleResult .StatusUp .StatusUp)) = [] :=
  ⟨by decide,
    (dispatch_silent_without_transition sampleEnv
      (sampleConf true ⟨.Daily, "03:00", false⟩ ⟨"", "8181", 0⟩)
      [sampleProber "web" none 5] [slack, email] true [sampleResult .StatusInit .StatusUp]
      (sampleResult .StatusUp .StatusUp) [] (by decide)).2.1⟩

/-- C2: a Result with PreStatus different from Status, other than Init to Up,
makes the dispatch loop of `run` notify every notifier exactly once: in dry
mode its notifier invocations are `DryNotify` with that Result, called in
place, one per notifier in list order, and nothing else (no `Notify`); in live
mode they are one started `Notify` with that Result per notifier and nothing
else (no `DryNotify`).  Inside `run` these invocations come after the ones of
the Results received before and ahead of the ones of what is received after. -/
theorem dispatch_notifies_each_once (env : Env) (c : conf.Conf)
    (probers : List probe.Prober) (notifies : List notify.Notify)
    (before : List probe.Result) (result : probe.Result) (after : List Select)
    (h1 : result.PreStatus ≠ result.Status)
    (h2 : ¬ (result.PreStatus = probe.Status.StatusInit
              ∧ result.Status = probe.Status.StatusUp)) :
    notifierCalls (dispatch true notifies result)
        = notifies.map (fun n => Event.sync (Call.DryNotify n result))
    ∧ notifierCalls (dispatch false notifies result)
        = notifies.map (fun n => Event.go (Call.Notify n result))
    ∧ (run env c probers notifies (before.map Select.result ++ Select.result result :: after)).map
          (fun ran => notifierCalls ran.trace)
        = some (notifierCalls (watch c.Settings.Notify.Dry notifies (before.map Select.result))
            ++ notifies.map (fun n =>
                if c.Settings.Notify.Dry then Event.sync (Call.DryNotify n result)
                else Event.go (Call.Notify n result))
            ++ notifierCalls (watch c.Settings.Notify.Dry notifies after)) := by
  refine ⟨?_, ?_, ?_⟩
  · rw [notifierCalls_dispatch, if_pos ⟨h1, h2⟩]
    simp [notificationsOf]
  · rw [notifierCalls_dispatch, if_pos ⟨h1, h2⟩]
    simp [notificationsOf]
  · rw [run_notifierCalls, watch_results_append]
    simp only [watch, notifierCalls_append, notifierCalls_dispatch, if_pos (And.intro h1 h2),
      notificationsOf, List.append_assoc]

/-- C2 at a concrete input: an Up-to-Down Result and two notifiers. -/
theorem dispatch_notifies_each_once_witness :
    ((sampleResult .StatusUp .StatusDown).PreStatus ≠ (sampleResult .StatusUp .StatusDown).Status
      ∧ ¬ ((sampleResult .StatusUp .StatusDown).PreStatus = probe.Status.StatusInit
            ∧ (sampleResult .StatusUp .StatusDown).Status = probe.Status.StatusUp))
    ∧ notifierCalls (dispatch true [slack, email] (sampleResult .StatusUp .StatusDown))
        = [slack, email].map (fun n => Event.sync (Call.DryNotify n (sampleResult .StatusUp .StatusDown)))
    ∧ notifierCalls (dispatch false [slack, email] (sampleResult .StatusUp .StatusDown))
        = [slack, email].map (fun n => Event.go (Call.Notify n (sampleResult .StatusUp .StatusDown))) :=
  ⟨by decide,
    (dispatch_notifies_each_once sampleEnv
      (sampleConf true ⟨.Daily, "03:00", false⟩ ⟨"", "8181", 0⟩)
      [sampleProber "web" none 5] [slack, email] [] (sampleResult .StatusUp .StatusDown) []
      (by decide) (by decide)).1,
    (dispatch_notifies_each_once sampleEnv
      (sampleConf true ⟨.Daily, "03:00", false⟩ ⟨"", "8181", 0⟩)
      [sampleProber "web" none 5] [slack, email] [] (sampleResult .StatusUp .StatusDown) []
      (by decide) (by decide)).2.1⟩

theorem inSuccession_suffix (pre l : List probe.Result) :
    ∀ prev, inSuccession prev (pre ++ l) = true →
      ∃ q, inSuccession q l = true ∧ (pre = [] → q = prev) ∧ (pre ≠ [] → ∃ x ∈ pre, q = x.Status) := by
  induction pre with
  | nil =>
    intro prev h
    exact ⟨prev, h, fun _ => rfl, fun hne => absurd rfl hne⟩
  | cons a pre ih =>
    intro prev h
    simp only [List.cons_append, inSuccession, Bool.and_eq_true, decide_eq_true_eq] at h
    obtain ⟨q, hq, hnil, hcons⟩ := ih a.Status h.2
    refine ⟨q, hq, fun hne => absurd hne (List.cons_ne_nil _ _), fun _ => ?_⟩
    by_cases hp : pre = []
    · exact ⟨a, List.mem_cons_self _ _, hnil hp⟩
    · obtain ⟨x, hx, hqx⟩ := hcons hp
      exact ⟨x, List.mem_cons_of_mem _ hx, hqx⟩

theorem inSuccession_prefix (pre l : List probe.Result) :
    ∀ prev, inSuccession prev (pre ++ l) = true → inSuccession prev pre = true := by
  induction pre with
  | nil => intro _ _; rfl
  | cons a pre ih =>
    intro prev h
    simp only [List.cons_append, inSuccession, Bool.and_eq_true, decide_eq_true_eq] at h ⊢
    exact ⟨h.1, ih a.Status h.2⟩

theorem notifierCalls_watch_unchanged (dry : Bool) (ns : List notify.Notify) :
    ∀ (l : List probe.Result) (q : probe.Status), inSuccession q l = true →
      (∀ x ∈ l, x.Status = q) → notifierCalls (watch dry ns (l.map Select.result)) = [] := by
  intro l
  induction l with
  | nil => intro _ _ _; rfl
  | cons a l ih =>
    intro q h hall
    simp only [inSuccession, Bool.and_eq_true, decide_eq_true_eq] at h
    have ha : a.Status = q := hall a (List.mem_cons_self _ _)
    have hrest := ih a.Status h.2 (fun x hx => by rw [hall x (List.mem_cons_of_mem _ hx), ha])
    simp only [List.map_cons, watch, notifierCalls_append, hrest, List.append_nil]
    rw [notifierCalls_dispatch, if_neg]
    rintro ⟨h1, _⟩
    exact h1 (by rw [h.1, ha])

/-- C3 as stated fails: in Init to Up, Up to Init, Init to Up (each PreStatus
the Status before it) the third position changes Status and is not a first
Init-to-Up, the first position already was one; yet the guard of `run` on
PreStatus = Init and Status = Up (main.go 126) leaves it without any
notification: the only notifier invocations of `run` are the ones of the
second position. -/
theorem later_init_to_up_not_notified :
    inSuccession probe.Status.StatusInit
        [sampleResult .StatusInit .StatusUp, sampleResult .StatusUp .StatusInit,
          sampleResult .StatusInit .StatusUp] = true
    ∧ (sampleResult .StatusInit .StatusUp).PreStatus ≠ (sampleResult .StatusInit .StatusUp).Status
    ∧ notifierCalls (dispatch true [slack, email] (sampleResult .StatusInit .StatusUp)) = []
    ∧ (run sampleEnv (sampleConf true ⟨.Daily, "03:00", false⟩ ⟨"", "8181", 0⟩)
          [sampleProber "web" none 5] [slack, email]
          ([sampleResult .StatusInit .StatusUp, sampleResult .StatusUp .StatusInit,
            sampleResult .StatusInit .StatusUp].map Select.result)).map
          (fun ran => notifierCalls ran.trace)
        = some [Event.sync (Call.DryNotify slack (sampleResult .StatusUp .StatusInit)),
                Event.sync (Call.DryNotify email (sampleResult .StatusUp .StatusInit))] :=
  ⟨by decide, by decide, rfl, rfl⟩

/-- C3, amended: for the Results of one prober received in order by `run`, the
first with PreStatus Init and each later one with the Status of the one before
it as PreStatus:
(1) the notifier invocations of `run` are, position by position, one
notification per notifier (in list order, carrying the Result of that
position) where Status differs from PreStatus and the position is not an
Init-to-Up one, whether the first Init-to-Up or a later one, and nothing for
every other position;
(2) a position that repeats the Status of the position before it notifies
nobody;
(3) a stretch of positions with one unchanged Status gives at most one
notification per notifier, the one of its first position;
(4) Init, then Up, Down, Down gives exactly one notification per notifier,
carrying PreStatus Up and Status Down. -/
theorem transitions_notified_once (env : Env) (c : conf.Conf)
    (probers : List probe.Prober) (notifies : List notify.Notify)
    (rs : List probe.Result) (h : inSuccession probe.Status.StatusInit rs = true) :
    (run env c probers notifies (rs.map Select.result)).map (fun ran => notifierCalls ran.trace)
        = some ((rs.map (fun r =>
            if r.PreStatus ≠ r.Status
                ∧ ¬ (r.PreStatus = probe.Status.StatusInit ∧ r.Status = probe.Status.StatusUp)
            then notifies.map (fun n =>
              if c.Settings.Notify.Dry then Event.sync (Call.DryNotify n r)
              else Event.go (Call.Notify n r))
            else [])).flatten)
    ∧ (∀ pre a b post, rs = pre ++ a :: b :: post → b.Status = a.Status →
        notifierCalls (dispatch c.Settings.Notify.Dry notifies b) = [])
    ∧ (∀ pre same post, rs = pre ++ same ++ post →
        (∀ a ∈ same, ∀ b ∈ same, a.Status = b.Status) →
        notifierCalls (watch c.Settings.Notify.Dry notifies (same.map Select.result)) = []
        ∨ ∃ r, same.head? = some r
            ∧ notifierCalls (watch c.Settings.Notify.Dry notifies (same.map Select.result))
                = notifies.map (fun n =>
                    if c.Settings.Notify.Dry then Event.sync (Call.DryNotify n r)
                    else Event.go (Call.Notify n r)))
    ∧ (∀ r1 r2 r3, rs = [r1, r2, r3] → r1.Status = probe.Status.StatusUp →
        r2.Status = probe.Status.StatusDown → r3.Status = probe.Status.StatusDown →
        r2.PreStatus = probe.Status.StatusUp
        ∧ (run env c probers notifies (rs.map Select.result)).map
              (fun ran => notifierCalls ran.trace)
            = some (notifies.map (fun n =>
                if c.Settings.Notify.Dry then Event.sync (Call.DryNotify n r2)
                else Event.go (Call.Notify n r2)))) := by
  have hA := notifierCalls_watch_results c.Settings.Notify.Dry notifies rs
  refine ⟨?_, ?_, ?_, ?_⟩
  · rw [run_notifierCalls, hA]
    rfl
  · intro pre a b post hrs hba
    subst hrs
    obtain ⟨q, hq, _, _⟩ := inSuccession_suffix pre (a :: b :: post) _ h
    simp only [inSuccession, Bool.and_eq_true, decide_eq_true_eq] at hq
    rw [notifierCalls_dispatch, if_neg]
    rintro ⟨h1, _⟩
    exact h1 (by rw [hq.2.1, hba])
  · intro pre same post hrs hsame
    subst hrs
    rw [List.append_assoc] at h
    obtain ⟨q, hq, _, _⟩ := inSuccession_suffix pre (same ++ post) _ h
    have hs := inSuccession_prefix same post q hq
    cases same with
    | nil => exact Or.inl rfl
    | cons r tl =>
      simp only [inSuccession, Bool.and_eq_true, decide_eq_true_eq] at hs
      have htl := notifierCalls_watch_unchanged c.Settings.Notify.Dry notifies tl r.Status hs.2
        (fun x hx => hsame x (List.mem_cons_of_mem _ hx) r (List.mem_cons_self _ _))
      simp only [List.map_cons, watch, notifierCalls_append, htl, List.append_nil,
        notifierCalls_dispatch, List.head?_cons]
      by_cases hg : r.PreStatus ≠ r.Status
            ∧ ¬ (r.PreStatus = probe.Status.StatusInit ∧ r.Status = probe.Status.StatusUp)
      · right
        exact ⟨r, rfl, by rw [if_pos hg]; rfl⟩
      · left
        rw [if_neg hg]
  · intro r1 r2 r3 hrs h1 h2 h3
    subst hrs
    simp only [inSuccession, Bool.and_eq_true, decide_eq_true_eq, and_true] at h
    obtain ⟨p1, p2, p3⟩ := h
    refine ⟨by rw [p2, h1], ?_⟩
    rw [run_notifierCalls, hA]
    simp [p1, p2, p3, h1, h2, h3, notificationsOf]

/-- C3 amended, at the scenario of the specification: Init, then Up, Down, Down, with
two notifiers in dry mode, gives one `DryNotify` per notifier carrying the
Up-to-Down Result. -/
theorem transitions_notified_once_witness :
    inSuccession probe.Status.StatusInit
        [sampleResult .StatusInit .StatusUp, sampleResult .StatusUp .StatusDown,
          sampleResult .StatusDown .StatusDown] = true
    ∧ (run sampleEnv (sampleConf true ⟨.Daily, "03:00", false⟩ ⟨"", "8181", 0⟩)
          [sampleProber "web" none 5] [slack, email]
          ([sampleResult .StatusInit .StatusUp, sampleResult .StatusUp .StatusDown,
            sampleResult .StatusDown .StatusDown].map Select.result)).map
          (fun ran => notifierCalls ran.trace)
        = some [Event.sync (Call.DryNotify slack (sampleResult .StatusUp .StatusDown)),
                Event.sync (Call.DryNotify email (sampleResult .StatusUp .StatusDown))] :=
  ⟨by decide,
    ((transitions_notified_once sampleEnv (sampleConf true ⟨.Daily, "03:00", false⟩ ⟨"", "8181", 0⟩)
      [sampleProber "web" none 5] [slack, email]
      [sampleResult .StatusInit .StatusUp, sampleResult .StatusUp .StatusDown,
        sampleResult .StatusDown .StatusDown] (by decide)).2.2.2
      (sampleResult .StatusInit .StatusUp) (sampleResult .StatusUp .StatusDown)
      (sampleResult .StatusDown .StatusDown) rfl rfl rfl rfl).2⟩

/-- The code at the input that decides C4: a notifier whose `Config` returns
an error (`email`) stays in the list `run` fans out to.  For an Up-to-Down
Result `run` calls `DryNotify` on it in dry mode and starts `Notify` on it in
live mode, exactly as on the notifier whose `Config` succeeded. -/
theorem failed_notifier_still_notified :
    email.Config (gNotifyConf (sampleConf true ⟨.Daily, "03:00", false⟩ ⟨"", "8181", 0⟩))
        = some "no SMTP server"
    ∧ (run sampleEnv (sampleConf true ⟨.Daily, "03:00", false⟩ ⟨"", "8181", 0⟩)
          [sampleProber "web" none 5] [email, slack]
          [Select.result (sampleResult .StatusUp .StatusDown)]).map
          (fun ran => notifierCalls ran.trace)
        = some [Event.sync (Call.DryNotify email (sampleResult .StatusUp .StatusDown)),
                Event.sync (Call.DryNotify slack (sampleResult .StatusUp .StatusDown))]
    ∧ (run sampleEnv (sampleConf false ⟨.Daily, "03:00", false⟩ ⟨"", "8181", 0⟩)
          [sampleProber "web" none 5] [email, slack]
          [Select.result (sampleResult .StatusUp .StatusDown)]).map
          (fun ran => notifierCalls ran.trace)
        = some [Event.go (Call.Notify email (sampleResult .StatusUp .StatusDown)),
                Event.go (Call.Notify slack (sampleResult .StatusUp .StatusDown))] :=
  ⟨rfl, rfl, rfl⟩

theorem runnersStarted_append (a b : List Event) :
    runnersStarted (a ++ b) = runnersStarted a ++ runnersStarted b := by
  simp [runnersStarted]

theorem configProbers_cons (c : conf.Conf) (p : probe.Prober) (ps : List probe.Prober) :
    (configProbers c (p :: ps)).1 = (configProber (gProbeConf c) p).1 :: (configProbers c ps).1
    ∧ runnersStarted (configProbers c (p :: ps)).2
        = runnersStarted (configProber (gProbeConf c) p).2 ++ runnersStarted (configProbers c ps).2 := by
  constructor
  · rfl
  · simp [configProbers, runnersStarted]

/-- C5: `configProbers` starts a runner for exactly the probers whose `Config`
returns no error, in list order, each with Message "Good Configuration!"; a
prober whose `Config` returns error `e` ends with Message
"Bad Configuration: " followed by `e` and gets no runner; and what happens to
one prober does not depend on the probers around it. -/
theorem configProbers_runs_exactly_the_good (c : conf.Conf) (probers : List probe.Prober) :
    runnersStarted (configProbers c probers).2
        = (probers.filter (fun p => (p.Config (gProbeConf c)).isNone)).map
            (fun p => p.setMessage "Good Configuration!")
    ∧ (configProbers c probers).1
        = probers.map (fun p =>
            match p.Config (gProbeConf c) with
            | some e => p.setMessage ("Bad Configuration: " ++ e)
            | none => p.setMessage "Good Configuration!")
    ∧ (∀ pre p post, probers = pre ++ p :: post →
        (configProbers c probers).1
            = (configProbers c pre).1 ++ (configProber (gProbeConf c) p).1 :: (configProbers c post).1
        ∧ runnersStarted (configProbers c probers).2
            = runnersStarted (configProbers c pre).2
                ++ runnersStarted (configProber (gProbeConf c) p).2
                ++ runnersStarted (configProbers c post).2
        ∧ (∀ e, p.Config (gProbeConf c) = some e →
            (configProber (gProbeConf c) p).1.Result.Message = "Bad Configuration: " ++ e
            ∧ runnersStarted (configProber (gProbeConf c) p).2 = [])
        ∧ (p.Config (gProbeConf c) = none →
            (configProber (gProbeConf c) p).1.Result.Message = "Good Configuration!"
            ∧ runnersStarted (configProber (gProbeConf c) p).2
                = [p.setMessage "Good Configuration!"])) := by
  refine ⟨?_, ?_, ?_⟩
  · induction probers with
    | nil => rfl
    | cons p ps ih =>
      rw [(configProbers_cons c p ps).2, ih]
      unfold configProber
      cases hp : p.Config (gProbeConf c) with
      | none => simp [runnersStarted, hp]
      | some e => simp [runnersStarted, hp]
  · induction probers with
    | nil => rfl
    | cons p ps ih =>
      rw [(configProbers_cons c p ps).1, ih]
      unfold configProber
      cases hp : p.Config (gProbeConf c) <;> simp [hp]
  · intro pre p post hps
    subst hps
    refine ⟨?_, ?_, ?_, ?_⟩
    · induction pre with
      | nil => exact (configProbers_cons c p post).1
      | cons a pre ih =>
        rw [List.cons_append, (configProbers_cons c a _).1, ih, (configProbers_cons c a pre).1]
        rfl
    · induction pre with
      | nil =>
        rw [List.nil_append, (configProbers_cons c p post).2]
        simp [configProbers, runnersStarted]
      | cons a pre ih =>
        rw [List.cons_append, (configProbers_cons c a _).2, ih, (configProbers_cons c a pre).2]
        simp only [List.append_assoc]
    · intro e he
      unfold configProber
      rw [he]
      exact ⟨rfl, rfl⟩
    · intro hn
      unfold configProber
      rw [hn]
      exact ⟨rfl, rfl⟩

/-- C5 at a concrete input: a failing prober between two good ones. -/
theorem configProbers_runs_exactly_the_good_witness :
    runnersStarted (configProbers (sampleConf true ⟨.Daily, "03:00", false⟩ ⟨"", "8181", 0⟩)
        [sampleProber "a" none 5, sampleProber "b" (some "no host") 5,
          sampleProber "c" none 5]).2
      = ([sampleProber "a" none 5, sampleProber "b" (some "no host") 5,
          sampleProber "c" none 5].filter
            (fun p => (p.Config (gProbeConf
              (sampleConf true ⟨.Daily, "03:00", false⟩ ⟨"", "8181", 0⟩))).isNone)).map
          (fun p => p.setMessage "Good Configuration!") :=
  (configProbers_runs_exactly_the_good (sampleConf true ⟨.Daily, "03:00", false⟩ ⟨"", "8181", 0⟩)
    [sampleProber "a" none 5, sampleProber "b" (some "no host") 5, sampleProber "c" none 5]).1

theorem Server_keeps_settings (env : Env) (c : conf.Conf) (ps : List probe.Prober) :
    ∃ s, web.Server env c (web.SetProbers ps) = some s
      ∧ s.conf.Settings.SLAReport = c.Settings.SLAReport
      ∧ s.conf.Settings.Notify = c.Settings.Notify
      ∧ s.conf.Settings.HTTPServer.AutoRefreshTime
          = (if c.Settings.HTTPServer.AutoRefreshTime = 0
              then web.minInterval env.DefaultProbeInterval ps
              else c.Settings.HTTPServer.AutoRefreshTime)
      ∧ s.port = (if (strconv.Atoi c.Settings.HTTPServer.Port).2 ≠ none
                      ∨ (strconv.Atoi c.Settings.HTTPServer.Port).1 ≤ 1024
                      ∨ (strconv.Atoi c.Settings.HTTPServer.Port).1 > 65535
                  then env.DefaultHTTPServerPort else c.Settings.HTTPServer.Port)
      ∧ Event.go (Call.ListenAndServe (s.host ++ ":" ++ s.port)) ∈ s.trace
      ∧ (c.Settings.HTTPServer.AutoRefreshTime ≠ 0 → s.conf = c) := by
  unfold web.Server web.SetProbers
  simp only
  by_cases h : c.Settings.HTTPServer.AutoRefreshTime = 0
  · rw [if_pos h]
    refine ⟨_, rfl, rfl, rfl, ?_, ?_, ?_, fun hne => absurd h hne⟩
    · simp [h]
    · by_cases hp : (strconv.Atoi c.Settings.HTTPServer.Port).2 ≠ none
          ∨ (strconv.Atoi c.Settings.HTTPServer.Port).1 ≤ 1024
          ∨ (strconv.Atoi c.Settings.HTTPServer.Port).1 > 65535
      · simp only [if_pos hp]
      · simp only [if_neg hp]
    · simp
  · rw [if_neg h]
    refine ⟨_, rfl, rfl, rfl, ?_, ?_, ?_, fun _ => rfl⟩
    · simp [h]
    · by_cases hp : (strconv.Atoi c.Settings.HTTPServer.Port).2 ≠ none
          ∨ (strconv.Atoi c.Settings.HTTPServer.Port).1 ≤ 1024
          ∨ (strconv.Atoi c.Settings.HTTPServer.Port).1 > 65535
      · simp only [if_pos hp]
      · simp only [if_neg hp]
    · simp

theorem scheduleSLA_congr (c1 c2 : conf.Conf) (ps : List probe.Prober) (ns : List notify.Notify)
    (h1 : c1.Settings.SLAReport = c2.Settings.SLAReport)
    (h2 : c1.Settings.Notify = c2.Settings.Notify) :
    scheduleSLA c1 ps ns = scheduleSLA c2 ps ns := by
  unfold scheduleSLA
  rw [h1, h2]

theorem run_cron (env : Env) (c : conf.Conf) (ps : List probe.Prober)
    (ns : List notify.Notify) (received : List Select) :
    ∃ ran, run env c ps ns received = some ran
      ∧ ran.probers = (configProbers c ps).1
      ∧ ran.cron = (if c.Settings.SLAReport.Schedule ≠ conf.Schedule.None
                    then some (scheduleSLA c (configProbers c ps).1 ns).1 else none) := by
  obtain ⟨s, hs, hsla, hn, _⟩ := Server_keeps_settings env c (configProbers c ps).1
  unfold run
  simp only [hs]
  refine ⟨_, rfl, rfl, ?_⟩
  simp only [hsla]
  by_cases h : c.Settings.SLAReport.Schedule = conf.Schedule.None
  · simp [h]
  · simp only [ne_eq, h, not_false_eq_true, if_true]
    rw [scheduleSLA_congr s.conf c _ _ hsla hn]

theorem scheduleSLA_debug (c : conf.Conf) (ps : List probe.Prober) (ns : List notify.Notify)
    (h : c.Settings.SLAReport.Debug = true) :
    (scheduleSLA c ps ns).1
      = { location := "UTC", running := true,
          jobs := [{ interval := 1, unit := some gocron.schedulingUnit.minutes,
                     scheduledWeekdays := [], daysOfTheMonth := [], atTime := none,
                     function := some (fun _ => SLAFn c.Settings.Notify.Dry ps ns),
                     error := none }] } := by
  unfold scheduleSLA
  simp only [h, if_true]
  rfl

/-- C6 as stated fails: with Debug = true and Schedule = None, `run` does not
call `scheduleSLA`; no scheduler is created and no SLA job is registered. -/
theorem debug_with_schedule_none_registers_nothing :
    (sampleConf true ⟨.None, "03:00", true⟩ ⟨"", "8181", 0⟩).Settings.SLAReport.Debug = true
    ∧ (run sampleEnv (sampleConf true ⟨.None, "03:00", true⟩ ⟨"", "8181", 0⟩)
          [sampleProber "web" none 5] [slack] []).map (fun ran => ran.cron.isNone) = some true
    ∧ ¬ ∃ ran sched, run sampleEnv (sampleConf true ⟨.None, "03:00", true⟩ ⟨"", "8181", 0⟩)
          [sampleProber "web" none 5] [slack] [] = some ran
        ∧ ran.cron = some sched ∧ sched.jobs ≠ [] := by
  refine ⟨rfl, rfl, ?_⟩
  rintro ⟨ran, sched, hrun, hcron, _⟩
  obtain ⟨ran1, h1, _, h3⟩ := run_cron sampleEnv
    (sampleConf true ⟨.None, "03:00", true⟩ ⟨"", "8181", 0⟩) [sampleProber "web" none 5] [slack] []
  rw [hrun] at h1
  injection h1 with h1
  subst h1
  rw [hcron] at h3
  simp [sampleConf] at h3

/-- C6, amended: for every configuration with Debug = true and a Schedule
other than None, whatever that Schedule and the Time are, `run` (through
`scheduleSLA`) leaves a started UTC scheduler with exactly one job: every 1
minute, no weekday, no day of month, no time-of-day, running `SLAFn`; the span
between two firings of that job is 60 seconds, so at most one minute. -/
theorem debug_fires_every_minute (env : Env) (c : conf.Conf) (probers : List probe.Prober)
    (notifies : List notify.Notify) (received : List Select)
    (hD : c.Settings.SLAReport.Debug = true)
    (hS : c.Settings.SLAReport.Schedule ≠ conf.Schedule.None) :
    ∃ ran job, run env c probers notifies received = some ran
      ∧ ran.cron = some { location := "UTC", jobs := [job], running := true }
      ∧ job = { interval := 1, unit := some gocron.schedulingUnit.minutes,
                scheduledWeekdays := [], daysOfTheMonth := [], atTime := none,
                function := some (fun _ => SLAFn c.Settings.Notify.Dry ran.probers notifies),
                error := none }
      ∧ ∃ d, job.every? = some d ∧ d ≤ 60 := by
  obtain ⟨ran, hrun, hp, hc⟩ := run_cron env c probers notifies received
  refine ⟨ran, _, hrun, ?_, rfl, 60, rfl, le_refl _⟩
  rw [hc, if_pos hS, scheduleSLA_debug c _ _ hD, hp]

/-- C6 amended, at a concrete input: Debug = true with a Monthly schedule. -/
theorem debug_fires_every_minute_witness :
    ((sampleConf true ⟨.Monthly, "03:00", true⟩ ⟨"", "8181", 0⟩).Settings.SLAReport.Debug = true
      ∧ (sampleConf true ⟨.Monthly, "03:00", true⟩ ⟨"", "8181", 0⟩).Settings.SLAReport.Schedule
          ≠ conf.Schedule.None)
    ∧ ∃ ran job, run sampleEnv (sampleConf true ⟨.Monthly, "03:00", true⟩ ⟨"", "8181", 0⟩)
          [sampleProber "web" none 5] [slack] [] = some ran
      ∧ ran.cron = some { location := "UTC", jobs := [job], running := true }
      ∧ job = { interval := 1, unit := some gocron.schedulingUnit.minutes,
                scheduledWeekdays := [], daysOfTheMonth := [], atTime := none,
                function := some (fun _ => SLAFn true ran.probers [slack]),
                error := none }
      ∧ ∃ d, job.every? = some d ∧ d ≤ 60 :=
  ⟨⟨rfl, by decide⟩,
    debug_fires_every_minute sampleEnv (sampleConf true ⟨.Monthly, "03:00", true⟩ ⟨"", "8181", 0⟩)
      [sampleProber "web" none 5] [slack] [] rfl (by decide)⟩

theorem gocron.daily_chain {F : Type} (T : String) (fn : F) :
    ((((gocron.NewScheduler "UTC" : gocron.Scheduler F).Every 1).Day).At T).Do fn
      = { location := "UTC", running := false,
          jobs := match gocron.parseTime T with
            | some t => [{ interval := 1, unit := some gocron.schedulingUnit.days,
                           scheduledWeekdays := [], daysOfTheMonth := [],
                           atTime := some (gocron.atDuration t),
                           function := some fn, error := none }]
            | none => [] } := by
  cases hT : gocron.parseTime T with
  | none =>
    simp [gocron.NewScheduler, gocron.Scheduler.Every, gocron.Scheduler.Day, gocron.Scheduler.At,
      gocron.Scheduler.Do, gocron.Scheduler.onCurrentJob, hT, gocron.wrapOrError]
  | some t =>
    obtain ⟨h, m, s⟩ := t
    simp [gocron.NewScheduler, gocron.Scheduler.Every, gocron.Scheduler.Day, gocron.Scheduler.At,
      gocron.Scheduler.Do, gocron.Scheduler.onCurrentJob, hT, gocron.wrapOrError,
      gocron.atDuration]

theorem gocron.weekly_chain {F : Type} (T : String) (fn : F) :
    (((((gocron.NewScheduler "UTC" : gocron.Scheduler F).Every 1).Day).Sunday).At T).Do fn
      = { location := "UTC", running := false,
          jobs := match gocron.parseTime T with
            | some t => [{ interval := 1, unit := some gocron.schedulingUnit.weeks,
                           scheduledWeekdays := [time.Weekday.Sunday], daysOfTheMonth := [],
                           atTime := some (gocron.atDuration t),
                           function := some fn, error := none }]
            | none => [] } := by
  cases hT : gocron.parseTime T with
  | none =>
    simp [gocron.NewScheduler, gocron.Scheduler.Every, gocron.Scheduler.Day,
      gocron.Scheduler.Sunday, gocron.Scheduler.At, gocron.Scheduler.Do,
      gocron.Scheduler.onCurrentJob, hT, gocron.wrapOrError]
  | some t =>
    obtain ⟨h, m, s⟩ := t
    simp [gocron.NewScheduler, gocron.Scheduler.Every, gocron.Scheduler.Day,
      gocron.Scheduler.Sunday, gocron.Scheduler.At, gocron.Scheduler.Do,
      gocron.Scheduler.onCurrentJob, hT, gocron.wrapOrError, gocron.atDuration]

theorem gocron.monthly_chain {F : Type} (T : String) (fn : F) :
    ((((gocron.NewScheduler "UTC" : gocron.Scheduler F).Every 1).MonthLastDay).At T).Do fn
      = { location := "UTC", running := false,
          jobs := match gocron.parseTime T with
            | some t => [{ interval := 1, unit := some gocron.schedulingUnit.months,
                           scheduledWeekdays := [], daysOfTheMonth := [-1],
                           atTime := some (gocron.atDuration t),
                           function := some fn, error := none }]
            | none => [] } := by
  cases hT : gocron.parseTime T with
  | none =>
    simp [gocron.NewScheduler, gocron.Scheduler.Every, gocron.Scheduler.MonthLastDay,
      gocron.Scheduler.At, gocron.Scheduler.Do, gocron.Scheduler.onCurrentJob, hT,
      gocron.wrapOrError]
  | some t =>
    obtain ⟨h, m, s⟩ := t
    simp [gocron.NewScheduler, gocron.Scheduler.Every, gocron.Scheduler.MonthLastDay,
      gocron.Scheduler.At, gocron.Scheduler.Do, gocron.Scheduler.onCurrentJob, hT,
      gocron.wrapOrError, gocron.atDuration]

theorem gocron.parseTime_midnight : gocron.parseTime "00:00" = some (0, 0, 0) := by
  decide

theorem scheduleSLA_jobs (c : conf.Conf) (ps : List probe.Prober) (ns : List notify.Notify) :
    (scheduleSLA c ps ns).1.jobs
      = if c.Settings.SLAReport.Debug = true then
          [{ interval := 1, unit := some gocron.schedulingUnit.minutes,
             scheduledWeekdays := [], daysOfTheMonth := [], atTime := none,
             function := some (fun _ => SLAFn c.Settings.Notify.Dry ps ns), error := none }]
        else
          match c.Settings.SLAReport.Schedule with
          | conf.Schedule.Daily =>
            (match gocron.parseTime c.Settings.SLAReport.Time with
            | some t => [{ interval := 1, unit := some gocron.schedulingUnit.days,
                           scheduledWeekdays := [], daysOfTheMonth := [],
                           atTime := some (gocron.atDuration t),
                           function := some (fun _ => SLAFn c.Settings.Notify.Dry ps ns),
                           error := none }]
            | none => [])
          | conf.Schedule.Weekly =>
            (match gocron.parseTime c.Settings.SLAReport.Time with
            | some t => [{ interval := 1, unit := some gocron.schedulingUnit.weeks,
                           scheduledWeekdays := [time.Weekday.Sunday], daysOfTheMonth := [],
                           atTime := some (gocron.atDuration t),
                           function := some (fun _ => SLAFn c.Settings.Notify.Dry ps ns),
                           error := none }]
            | none => [])
          | conf.Schedule.Monthly =>
            (match gocron.parseTime c.Settings.SLAReport.Time with
            | some t => [{ interval := 1, unit := some gocron.schedulingUnit.months,
                           scheduledWeekdays := [], daysOfTheMonth := [-1],
                           atTime := some (gocron.atDuration t),
                           function := some (fun _ => SLAFn c.Settings.Notify.Dry ps ns),
                           error := none }]
            | none => [])
          | _ =>
            [{ interval := 1, unit := some gocron.schedulingUnit.days,
               scheduledWeekdays := [], daysOfTheMonth := [], atTime := some 0,
               function := some (fun _ => SLAFn c.Settings.Notify.Dry ps ns), error := none }] := by
  unfold scheduleSLA
  simp only [gocron.Scheduler.StartAsync]
  by_cases hD : c.Settings.SLAReport.Debug = true
  · simp only [hD, if_true]
    rfl
  · simp only [hD, Bool.false_eq_true, if_false]
    cases hS : c.Settings.SLAReport.Schedule with
    | Daily => simp only [gocron.daily_chain]
    | Weekly => simp only [gocron.weekly_chain]
    | Monthly => simp only [gocron.monthly_chain]
    | None => simp only [gocron.daily_chain, gocron.parseTime_midnight]; rfl
    | Other n => simp only [gocron.daily_chain, gocron.parseTime_midnight]; rfl

theorem scheduleSLA_started (c : conf.Conf) (ps : List probe.Prober) (ns : List notify.Notify) :
    (scheduleSLA c ps ns).1
      = { location := "UTC", jobs := (scheduleSLA c ps ns).1.jobs, running := true } := by
  unfold scheduleSLA
  simp only [gocron.Scheduler.StartAsync]
  by_cases hD : c.Settings.SLAReport.Debug = true
  · simp only [hD, if_true]
    rfl
  · simp only [hD, Bool.false_eq_true, if_false]
    cases hS : c.Settings.SLAReport.Schedule with
    | Daily => simp only [gocron.daily_chain]
    | Weekly => simp only [gocron.weekly_chain]
    | Monthly => simp only [gocron.monthly_chain]
    | None => simp only [gocron.daily_chain]
    | Other n => simp only [gocron.daily_chain]

theorem run_cron_jobs (env : Env) (c : conf.Conf) (ps : List probe.Prober)
    (ns : List notify.Notify) (received : List Select)
    (hS : c.Settings.SLAReport.Schedule ≠ conf.Schedule.None) :
    ∃ ran, run env c ps ns received = some ran
      ∧ ran.probers = (configProbers c ps).1
      ∧ ran.cron = some { location := "UTC", running := true,
                          jobs := (scheduleSLA c ran.probers ns).1.jobs } := by
  obtain ⟨ran, hrun, hp, hc⟩ := run_cron env c ps ns received
  refine ⟨ran, hrun, hp, ?_⟩
  rw [hc, if_pos hS, hp]
  exact congrArg some (scheduleSLA_started c _ ns)

/-- C7 as stated fails: with Schedule = Daily, Debug = false and the Time text
"25:00", which is no time-of-day, `At` records an error, `Do` removes the job,
and `run` leaves a started scheduler with no job at all. -/
theorem malformed_time_registers_no_job :
    gocron.parseTime "25:00" = none
    ∧ (run sampleEnv (sampleConf true ⟨.Daily, "25:00", false⟩ ⟨"", "8181", 0⟩)
          [sampleProber "web" none 5] [slack] []).map
          (fun ran => ran.cron.map (fun sched => (sched.running, sched.jobs.length)))
        = some (some (true, 0)) := by
  constructor
  · decide
  · rfl

/-- C7, amended: schedule resolution at startup, for every configured Time text
`T` that `At` accepts as a time-of-day (`parseTime T = some t`).  `run`
returns a state in which: Schedule = None leaves no scheduler (so no job),
whatever Debug is; with Debug = false, Daily leaves one job every 1 day at
`T`, Weekly one job every 1 week on Sunday at `T`, Monthly one job every 1
month on the last day (day of month -1) at `T`, and any other value one job
every 1 day at "00:00" (midnight, whatever `T` is); each of these on a started
scheduler in UTC, running `SLAFn`.  Every scheduler `run` leaves is started
and in UTC, and for such a `T` it holds exactly one job. -/
theorem sla_schedule_table (env : Env) (c : conf.Conf) (probers : List probe.Prober)
    (notifies : List notify.Notify) (received : List Select) :
    ∃ ran, run env c probers notifies received = some ran
      ∧ (c.Settings.SLAReport.Schedule = conf.Schedule.None → ran.cron = none)
      ∧ (c.Settings.SLAReport.Debug = false →
          c.Settings.SLAReport.Schedule = conf.Schedule.Daily →
          ∀ t, gocron.parseTime c.Settings.SLAReport.Time = some t →
          ran.cron = some
            { location := "UTC", running := true,
              jobs := [{ interval := 1, unit := some gocron.schedulingUnit.days,
                         scheduledWeekdays := [], daysOfTheMonth := [],
                         atTime := some (gocron.atDuration t),
                         function := some (fun _ =>
                           SLAFn c.Settings.Notify.Dry ran.probers notifies),
                         error := none }] })
      ∧ (c.Settings.SLAReport.Debug = false →
          c.Settings.SLAReport.Schedule = conf.Schedule.Weekly →
          ∀ t, gocron.parseTime c.Settings.SLAReport.Time = some t →
          ran.cron = some
            { location := "UTC", running := true,
              jobs := [{ interval := 1, unit := some gocron.schedulingUnit.weeks,
                         scheduledWeekdays := [time.Weekday.Sunday], daysOfTheMonth := [],
                         atTime := some (gocron.atDuration t),
                         function := some (fun _ =>
                           SLAFn c.Settings.Notify.Dry ran.probers notifies),
                         error := none }] })
      ∧ (c.Settings.SLAReport.Debug = false →
          c.Settings.SLAReport.Schedule = conf.Schedule.Monthly →
          ∀ t, gocron.parseTime c.Settings.SLAReport.Time = some t →
          ran.cron = some
            { location := "UTC", running := true,
              jobs := [{ interval := 1, unit := some gocron.schedulingUnit.months,
                         scheduledWeekdays := [], daysOfTheMonth := [-1],
                         atTime := some (gocron.atDuration t),
                         function := some (fun _ =>
                           SLAFn c.Settings.Notify.Dry ran.probers notifies),
                         error := none }] })
      ∧ (c.Settings.SLAReport.Debug = false →
          c.Settings.SLAReport.Schedule ≠ conf.Schedule.None →
          c.Settings.SLAReport.Schedule ≠ conf.Schedule.Daily →
          c.Settings.SLAReport.Schedule ≠ conf.Schedule.Weekly →
          c.Settings.SLAReport.Schedule ≠ conf.Schedule.Monthly →
          ran.cron = some
            { location := "UTC", running := true,
              jobs := [{ interval := 1, unit := some gocron.schedulingUnit.days,
                         scheduledWeekdays := [], daysOfTheMonth := [],
                         atTime := some 0,
                         function := some (fun _ =>
                           SLAFn c.Settings.Notify.Dry ran.probers notifies),
                         error := none }] })
      ∧ (∀ sched, ran.cron = some sched → sched.running = true ∧ sched.location = "UTC")
      ∧ (∀ t, gocron.parseTime c.Settings.SLAReport.Time = some t →
          ∀ sched, ran.cron = some sched → sched.jobs.length = 1) := by
  by_cases hS : c.Settings.SLAReport.Schedule = conf.Schedule.None
  · obtain ⟨ran, hrun, _, hc⟩ := run_cron env c probers notifies received
    have hnone : ran.cron = none := by rw [hc, hS]; rfl
    refine ⟨ran, hrun, fun _ => hnone, ?_, ?_, ?_, ?_, ?_, ?_⟩
    · intro _ h; rw [hS] at h; exact absurd h (by decide)
    · intro _ h; rw [hS] at h; exact absurd h (by decide)
    · intro _ h; rw [hS] at h; exact absurd h (by decide)
    · intro _ h; exact absurd hS h
    · intro sched hs; rw [hnone] at hs; exact absurd hs (by simp)
    · intro _ _ sched hs; rw [hnone] at hs; exact absurd hs (by simp)
  · obtain ⟨ran, hrun, hp, hc⟩ := run_cron_jobs env c probers notifies received hS
    have hjobs := scheduleSLA_jobs c ran.probers notifies
    refine ⟨ran, hrun, fun h => absurd h hS, ?_, ?_, ?_, ?_, ?_, ?_⟩
    · intro hD hDaily t ht
      rw [hc, hjobs]
      simp only [hD, hDaily, ht, Bool.false_eq_true, if_false]
    · intro hD hWeekly t ht
      rw [hc, hjobs]
      simp only [hD, hWeekly, ht, Bool.false_eq_true, if_false]
    · intro hD hMonthly t ht
      rw [hc, hjobs]
      simp only [hD, hMonthly, ht, Bool.false_eq_true, if_false]
    · intro hD _ h1 h2 h3
      rw [hc, hjobs]
      simp only [hD, Bool.false_eq_true, if_false]
    · intro sched hs
      rw [hc] at hs
      injection hs with hs
      subst hs
      exact ⟨rfl, rfl⟩
    · intro t ht sched hs
      rw [hc] at hs
      injection hs with hs
      subst hs
      show (scheduleSLA c ran.probers notifies).1.jobs.length = 1
      rw [hjobs]
      split
      · rfl
      · split
        · rw [ht]; rfl
        · rw [ht]; rfl
        · rw [ht]; rfl
        · rfl

/-- C7 amended, at a concrete input: Weekly at "03:00", Debug off; the job is
set for three hours after midnight. -/
theorem sla_schedule_table_witness :
    gocron.parseTime "03:00" = some (3, 0, 0)
    ∧ ∃ ran, run sampleEnv (sampleConf false ⟨.Weekly, "03:00", false⟩ ⟨"", "8181", 0⟩)
        [sampleProber "web" none 5] [slack] [] = some ran
      ∧ ran.cron = some
          { location := "UTC", running := true,
            jobs := [{ interval := 1, unit := some gocron.schedulingUnit.weeks,
                       scheduledWeekdays := [time.Weekday.Sunday], daysOfTheMonth := [],
                       atTime := some 10800000000000,
                       function := some (fun _ => SLAFn false ran.probers [slack]),
                       error := none }] } :=
  ⟨by decide,
    (sla_schedule_table sampleEnv (sampleConf false ⟨.Weekly, "03:00", false⟩ ⟨"", "8181", 0⟩)
      [sampleProber "web" none 5] [slack] []).elim
      (fun ran h => ⟨ran, h.1, h.2.2.2.1 rfl rfl (3, 0, 0) (by decide)⟩)⟩

theorem notifierCalls_SLAFn (dry : Bool) (ps : List probe.Prober) (ns : List notify.Notify) :
    notifierCalls (SLAFn dry ps ns)
      = ns.map (fun n =>
          if dry then Event.sync (Call.DryNotifyStat n ps) else Event.go (Call.NotifyStat n ps)) := by
  unfold SLAFn
  rw [notifierCalls_append]
  have hlast : notifierCalls
      [Event.log LogLevel.Info "Next Time to send the SLA Report - %s" [LogArg.nextRun]] = [] := rfl
  rw [hlast, List.append_nil]
  induction ns with
  | nil => rfl
  | cons n ns ih =>
    rw [List.map_cons, List.flatten_cons, notifierCalls_append, ih, List.map_cons]
    cases dry <;> rfl

theorem scheduleSLA_function (c : conf.Conf) (ps : List probe.Prober) (ns : List notify.Notify) :
    ∀ job ∈ (scheduleSLA c ps ns).1.jobs,
      job.function = some (fun _ => SLAFn c.Settings.Notify.Dry ps ns) := by
  intro job hj
  rw [scheduleSLA_jobs] at hj
  split at hj
  · rw [List.mem_singleton] at hj
    rw [hj]
  · split at hj
    · split at hj
      · rw [List.mem_singleton] at hj
        rw [hj]
      · exact absurd hj (List.not_mem_nil _)
    · split at hj
      · rw [List.mem_singleton] at hj
        rw [hj]
      · exact absurd hj (List.not_mem_nil _)
    · split at hj
      · rw [List.mem_singleton] at hj
        rw [hj]
      · exact absurd hj (List.not_mem_nil _)
    · rw [List.mem_singleton] at hj
      rw [hj]

/-- C8: one firing of the SLA job.  In dry mode `SLAFn` calls `DryNotifyStat`
once on every notifier, in the calling goroutine and in list order, each time
with the whole prober list, starts nothing in a goroutine and calls
`NotifyStat` on nobody; in live mode it starts one `NotifyStat` per notifier
with the whole prober list and calls `DryNotifyStat` on nobody.  Every job
`scheduleSLA` registers, and every job of the scheduler `run` leaves, runs
this `SLAFn` on the dry flag of the configuration and on the prober list
`run` holds, which has one entry per prober given to `run`. -/
theorem sla_firing_notifies_each_once (env : Env) (c : conf.Conf)
    (probers : List probe.Prober) (notifies : List notify.Notify) (received : List Select) :
    notifierCalls (SLAFn true probers notifies)
        = notifies.map (fun n => Event.sync (Call.DryNotifyStat n probers))
    ∧ (∀ e ∈ SLAFn true probers notifies, ∀ call, e ≠ Event.go call)
    ∧ notifierCalls (SLAFn false probers notifies)
        = notifies.map (fun n => Event.go (Call.NotifyStat n probers))
    ∧ (∀ job ∈ (scheduleSLA c probers notifies).1.jobs,
        job.function = some (fun _ => SLAFn c.Settings.Notify.Dry probers notifies))
    ∧ (∃ ran, run env c probers notifies received = some ran
        ∧ ran.probers.length = probers.length
        ∧ ∀ sched, ran.cron = some sched → ∀ job ∈ sched.jobs,
            job.function = some (fun _ => SLAFn c.Settings.Notify.Dry ran.probers notifies)) := by
  refine ⟨?_, ?_, ?_, scheduleSLA_function c probers notifies, ?_⟩
  · rw [notifierCalls_SLAFn]
    rfl
  · intro e he call hcall
    subst hcall
    unfold SLAFn at he
    simp at he
  · rw [notifierCalls_SLAFn]
    rfl
  · obtain ⟨ran, hrun, hp, hc⟩ := run_cron env c probers notifies received
    refine ⟨ran, hrun, ?_, ?_⟩
    · rw [hp]
      simp [configProbers]
    · intro sched hs job hj
      rw [hc] at hs
      split at hs
      · injection hs with hs
        subst hs
        rw [hp]
        exact scheduleSLA_function c _ notifies job hj
      · exact absurd hs (by simp)

/-- C8 at the scenario of the specification: two probers, dry mode on, two
notifiers. -/
theorem sla_firing_notifies_each_once_witness :
    notifierCalls (SLAFn true [sampleProber "a" none 5, sampleProber "b" none 7] [slack, email])
      = [Event.sync (Call.DryNotifyStat slack [sampleProber "a" none 5, sampleProber "b" none 7]),
         Event.sync (Call.DryNotifyStat email [sampleProber "a" none 5, sampleProber "b" none 7])] :=
  (sla_firing_notifies_each_once sampleEnv
    (sampleConf true ⟨.Daily, "03:00", false⟩ ⟨"", "8181", 0⟩)
    [sampleProber "a" none 5, sampleProber "b" none 7] [slack, email] []).1

/-- C9: the port `web.Server` listens on.  `Server` returns, and with
`(p, err) = strconv.Atoi(port)` for the configured port text: when `err` is
nil and `1024 < p ≤ 65535` it listens on the configured text; in every other
case (no integer, `p ≤ 1024`, the value 1024 itself included, or
`p > 65535`) it listens on `global.DefaultHTTPServerPort`.  So it listens on
the configured text exactly when that text parses into the range or is the
default text itself; when the default text parses into the range, exactly
when the configured text does. -/
theorem server_port_in_range_or_default (env : Env) (c : conf.Conf)
    (probers : List probe.Prober) :
    ∃ s, web.Server env c (web.SetProbers probers) = some s
      ∧ Event.go (Call.ListenAndServe (s.host ++ ":" ++ s.port)) ∈ s.trace
      ∧ ((∃ p : Int, strconv.Atoi c.Settings.HTTPServer.Port = (p, none)
            ∧ 1024 < p ∧ p ≤ 65535) → s.port = c.Settings.HTTPServer.Port)
      ∧ ((¬ ∃ p : Int, strconv.Atoi c.Settings.HTTPServer.Port = (p, none)
            ∧ 1024 < p ∧ p ≤ 65535) → s.port = env.DefaultHTTPServerPort)
      ∧ (strconv.Atoi c.Settings.HTTPServer.Port = (1024, none) →
          s.port = env.DefaultHTTPServerPort)
      ∧ (s.port = c.Settings.HTTPServer.Port ↔
          ((∃ p : Int, strconv.Atoi c.Settings.HTTPServer.Port = (p, none)
            ∧ 1024 < p ∧ p ≤ 65535)
            ∨ c.Settings.HTTPServer.Port = env.DefaultHTTPServerPort))
      ∧ ((∃ q : Int, strconv.Atoi env.DefaultHTTPServerPort = (q, none)
            ∧ 1024 < q ∧ q ≤ 65535) →
          (s.port = c.Settings.HTTPServer.Port ↔
            ∃ p : Int, strconv.Atoi c.Settings.HTTPServer.Port = (p, none)
              ∧ 1024 < p ∧ p ≤ 65535)) := by
  obtain ⟨s, hs, _, _, _, hport, hlisten, _⟩ := Server_keeps_settings env c probers
  have hiff : ((strconv.Atoi c.Settings.HTTPServer.Port).2 ≠ none
        ∨ (strconv.Atoi c.Settings.HTTPServer.Port).1 ≤ 1024
        ∨ (strconv.Atoi c.Settings.HTTPServer.Port).1 > 65535)
      ↔ ¬ ∃ p : Int, strconv.Atoi c.Settings.HTTPServer.Port = (p, none)
            ∧ 1024 < p ∧ p ≤ 65535 := by
    constructor
    · rintro h ⟨p, hp, h1, h2⟩
      rw [hp] at h
      rcases h with h | h | h
      · exact h rfl
      · exact absurd h (not_le.mpr h1)
      · exact absurd h (not_lt.mpr h2)
    · intro h
      by_contra hc
      push_neg at hc
      exact h ⟨(strconv.Atoi c.Settings.HTTPServer.Port).1,
        Prod.ext rfl hc.1, hc.2.1, hc.2.2⟩
  have hgood : (∃ p : Int, strconv.Atoi c.Settings.HTTPServer.Port = (p, none)
        ∧ 1024 < p ∧ p ≤ 65535) → s.port = c.Settings.HTTPServer.Port := by
    intro h
    rw [hport, if_neg (fun hc => hiff.mp hc h)]
  have hbad : (¬ ∃ p : Int, strconv.Atoi c.Settings.HTTPServer.Port = (p, none)
        ∧ 1024 < p ∧ p ≤ 65535) → s.port = env.DefaultHTTPServerPort := by
    intro h
    rw [hport, if_pos (hiff.mpr h)]
  have hiff2 : s.port = c.Settings.HTTPServer.Port ↔
      ((∃ p : Int, strconv.Atoi c.Settings.HTTPServer.Port = (p, none)
        ∧ 1024 < p ∧ p ≤ 65535)
        ∨ c.Settings.HTTPServer.Port = env.DefaultHTTPServerPort) := by
    constructor
    · intro h
      by_cases hv : ∃ p : Int, strconv.Atoi c.Settings.HTTPServer.Port = (p, none)
          ∧ 1024 < p ∧ p ≤ 65535
      · exact Or.inl hv
      · right
        rw [← h, hbad hv]
    · rintro (h | h)
      · exact hgood h
      · by_cases hv : ∃ p : Int, strconv.Atoi c.Settings.HTTPServer.Port = (p, none)
            ∧ 1024 < p ∧ p ≤ 65535
        · exact hgood hv
        · rw [hbad hv, h]
  refine ⟨s, hs, hlisten, hgood, hbad, ?_, hiff2, ?_⟩
  · intro h
    apply hbad
    rintro ⟨p, hp, h1, _⟩
    rw [h] at hp
    injection hp with hp _
    subst hp
    exact absurd h1 (by decide)
  · intro hdef
    constructor
    · intro h
      rcases hiff2.mp h with hv | heq
      · exact hv
      · rw [heq]
        exact hdef
    · exact hgood

/-- C9 at concrete inputs: "1025" and "65535" are kept, "1024", "65536", "80",
"http" and the empty text give the default "8181". -/
theorem server_port_in_range_or_default_witness :
    (web.Server sampleEnv (sampleConf true ⟨.Daily, "03:00", false⟩ ⟨"", "1025", 0⟩)
        (web.SetProbers [])).map (fun s => s.port) = some "1025"
    ∧ (web.Server sampleEnv (sampleConf true ⟨.Daily, "03:00", false⟩ ⟨"", "65535", 0⟩)
        (web.SetProbers [])).map (fun s => s.port) = some "65535"
    ∧ (web.Server sampleEnv (sampleConf true ⟨.Daily, "03:00", false⟩ ⟨"", "1024", 0⟩)
        (web.SetProbers [])).map (fun s => s.port) = some "8181"
    ∧ (web.Server sampleEnv (sampleConf true ⟨.Daily, "03:00", false⟩ ⟨"", "65536", 0⟩)
        (web.SetProbers [])).map (fun s => s.port) = some "8181"
    ∧ (web.Server sampleEnv (sampleConf true ⟨.Daily, "03:00", false⟩ ⟨"", "80", 0⟩)
        (web.SetProbers [])).map (fun s => s.port) = some "8181"
    ∧ (web.Server sampleEnv (sampleConf true ⟨.Daily, "03:00", false⟩ ⟨"", "http", 0⟩)
        (web.SetProbers [])).map (fun s => s.port) = some "8181"
    ∧ (web.Server sampleEnv (sampleConf true ⟨.Daily, "03:00", false⟩ ⟨"", "", 0⟩)
        (web.SetProbers [])).map (fun s => s.port) = some "8181"
    ∧ ∃ s, web.Server sampleEnv (sampleConf true ⟨.Daily, "03:00", false⟩ ⟨"", "1025", 0⟩)
        (web.SetProbers []) = some s
      ∧ Event.go (Call.ListenAndServe (s.host ++ ":" ++ s.port)) ∈ s.trace :=
  ⟨by decide, by decide, by decide, by decide, by decide, by decide, by decide,
    (server_port_in_range_or_default sampleEnv
      (sampleConf true ⟨.Daily, "03:00", false⟩ ⟨"", "1025", 0⟩) []).elim
      (fun s h => ⟨s, h.1, h.2.1⟩)⟩

theorem minInterval_spec (ps : List probe.Prober) :
    ∀ start : Int, web.minInterval start ps ≤ start
      ∧ (∀ p ∈ ps, web.minInterval start ps ≤ p.Interval)
      ∧ (web.minInterval start ps = start ∨ ∃ p ∈ ps, web.minInterval start ps = p.Interval) := by
  induction ps with
  | nil =>
    intro start
    exact ⟨le_refl _, fun p hp => absurd hp (List.not_mem_nil _), Or.inl rfl⟩
  | cons a ps ih =>
    intro start
    have hstep : web.minInterval start (a :: ps)
        = web.minInterval (if start > a.Interval then a.Interval else start) ps := rfl
    rw [hstep]
    obtain ⟨h1, h2, h3⟩ := ih (if start > a.Interval then a.Interval else start)
    by_cases hgt : start > a.Interval
    · rw [if_pos hgt] at h1 h2 h3 ⊢
      refine ⟨le_trans h1 (le_of_lt hgt), ?_, ?_⟩
      · intro p hp
        rcases List.mem_cons.mp hp with rfl | hp
        · exact h1
        · exact h2 p hp
      · rcases h3 with h3 | ⟨p, hp, h3⟩
        · exact Or.inr ⟨a, List.mem_cons_self _ _, h3⟩
        · exact Or.inr ⟨p, List.mem_cons_of_mem _ hp, h3⟩
    · rw [if_neg hgt] at h1 h2 h3 ⊢
      refine ⟨h1, ?_, ?_⟩
      · intro p hp
        rcases List.mem_cons.mp hp with rfl | hp
        · exact le_trans h1 (not_lt.mp hgt)
        · exact h2 p hp
      · rcases h3 with h3 | ⟨p, hp, h3⟩
        · exact Or.inl h3
        · exact Or.inr ⟨p, List.mem_cons_of_mem _ hp, h3⟩

/-- C10: the auto refresh time `web.Server` leaves, for the prober set
published with `SetProbers`.  `Server` returns; when the configured
`AutoRefreshTime` is 0 the value afterwards is the minimum of
`global.DefaultProbeInterval` and the `Interval()` of every prober of the set:
it is at most the default, at most every prober's interval, and it is the
default or one of those intervals (the default for an empty set); when the
configured value is not 0 the configuration is left as it is. -/
theorem server_auto_refresh_time (env : Env) (c : conf.Conf) (probers : List probe.Prober) :
    ∃ s, web.Server env c (web.SetProbers probers) = some s
      ∧ (c.Settings.HTTPServer.AutoRefreshTime = 0 →
          s.conf.Settings.HTTPServer.AutoRefreshTime ≤ env.DefaultProbeInterval
          ∧ (∀ p ∈ probers, s.conf.Settings.HTTPServer.AutoRefreshTime ≤ p.Interval)
          ∧ (s.conf.Settings.HTTPServer.AutoRefreshTime = env.DefaultProbeInterval
              ∨ ∃ p ∈ probers, s.conf.Settings.HTTPServer.AutoRefreshTime = p.Interval))
      ∧ (c.Settings.HTTPServer.AutoRefreshTime = 0 → probers = [] →
          s.conf.Settings.HTTPServer.AutoRefreshTime = env.DefaultProbeInterval)
      ∧ (c.Settings.HTTPServer.AutoRefreshTime ≠ 0 →
          s.conf = c
          ∧ s.conf.Settings.HTTPServer.AutoRefreshTime = c.Settings.HTTPServer.AutoRefreshTime) := by
  obtain ⟨s, hs, _, _, hart, _, _, hsame⟩ := Server_keeps_settings env c probers
  refine ⟨s, hs, ?_, ?_, ?_⟩
  · intro h0
    rw [hart, if_pos h0]
    exact minInterval_spec probers env.DefaultProbeInterval
  · intro h0 hnil
    rw [hart, if_pos h0, hnil]
    rfl
  · intro hne
    exact ⟨hsame hne, by rw [hsame hne]⟩

/-- C10 at concrete inputs: a default of one minute with probers of 5 and 7
nanoseconds gives 5; a configured value of 30 stays. -/
theorem server_auto_refresh_time_witness :
    (web.Server sampleEnv (sampleConf true ⟨.Daily, "03:00", false⟩ ⟨"", "8181", 0⟩)
        (web.SetProbers [sampleProber "a" none 7, sampleProber "b" none 5])).map
        (fun s => s.conf.Settings.HTTPServer.AutoRefreshTime) = some 5
    ∧ (web.Server sampleEnv (sampleConf true ⟨.Daily, "03:00", false⟩ ⟨"", "8181", 30⟩)
        (web.SetProbers [sampleProber "a" none 7, sampleProber "b" none 5])).map
        (fun s => s.conf.Settings.HTTPServer.AutoRefreshTime) = some 30
    ∧ ∃ s, web.Server sampleEnv (sampleConf true ⟨.Daily, "03:00", false⟩ ⟨"", "8181", 0⟩)
        (web.SetProbers []) = some s
      ∧ s.conf.Settings.HTTPServer.AutoRefreshTime = sampleEnv.DefaultProbeInterval :=
  ⟨by decide, by decide,
    (server_auto_refresh_time sampleEnv
      (sampleConf true ⟨.Daily, "03:00", false⟩ ⟨"", "8181", 0⟩) []).elim
      (fun s h => ⟨s, h.1, h.2.2.1 rfl rfl⟩)⟩
